import Mathlib

/- Shallow embedding of the Metacritic must-play scraper (main.py) and of
   the parts of its behaviour the specification describes.

   A listing-page body is abstracted as the list of product-card fragments
   the selector a.c-finderProductCard_container yields; each card records
   whether the img[alt="must-play"] marker element is present, together
   with the raw text of the sub-elements the extractor reads and the href
   attribute.  Effects are made explicit: an HTTP fetch is an oracle
   Nat -> Option body (none models a failed request, mirroring fetch_page
   returning None), a raised Python exception is none in an Option-valued
   result, and the set of pages a traversal actually fetches is returned
   as an explicit trace. -/

/-- One product-card fragment of a listing page, as seen through the fixed
selectors of parse_games.  A field of `none` means the corresponding
sub-element (or attribute) is absent; `some s` means it is present with raw
text `s`. -/
structure Card where
  mustPlay : Bool
  rankText : Option String
  titleText : Option String
  dateText : Option String
  scoreText : Option String
  href : Option String
  deriving DecidableEq, Repr

/-- A calendar date as produced by a successful
datetime.strptime(_, "%b %d, %Y"). -/
structure PyDate where
  year : Nat
  month : Nat
  day : Nat
  deriving DecidableEq, Repr

/-- Representation of a must-play game scraped from Metacritic (the Game
dataclass of main.py). -/
structure Game where
  rank : Option String
  title : Option String
  release_date : Option PyDate
  metascore : Option Int
  url : Option String := none
  critic_reviews : Option Nat := none
  deriving DecidableEq, Repr

/-- Numeric value of a list of ASCII digits (most significant first). -/
def digitsToNat (cs : List Char) : Nat :=
  cs.foldl (fun n c => 10 * n + (c.toNat - 48)) 0

/-- Continuation of the digit body of a Python int literal: digits with
single underscores allowed between digits, as CPython accepts.  `acc` holds
the digits read so far, in reverse. -/
def pyDigitsAux : List Char → List Char → Option (List Char)
  | [], acc => some acc.reverse
  | '_' :: c :: cs, acc => if c.isDigit then pyDigitsAux cs (c :: acc) else none
  | ['_'], _ => none
  | c :: cs, acc => if c.isDigit then pyDigitsAux cs (c :: acc) else none

/-- Unsigned digit body of a Python int: one or more ASCII digits, with
single underscores permitted between digits. -/
def pyIntDigits (cs : List Char) : Option Nat :=
  match cs with
  | [] => none
  | c :: cs => if c.isDigit then (pyDigitsAux cs [c]).map digitsToNat else none

/-- Python str.strip with no argument: remove leading and trailing
whitespace. -/
def pyStrip (s : String) : String :=
  (((s.toList.dropWhile Char.isWhitespace).reverse.dropWhile
      Char.isWhitespace).reverse).asString

/-- The Python function int applied to a string: strips whitespace, then
an optional sign followed by a digit body; `none` models the ValueError
CPython raises otherwise. -/
def pyInt (s : String) : Option Int :=
  match (pyStrip s).toList with
  | '+' :: cs => (pyIntDigits cs).map (fun n => (n : Int))
  | '-' :: cs => (pyIntDigits cs).map (fun n => -(n : Int))
  | cs => (pyIntDigits cs).map (fun n => (n : Int))

/-- Python str.isdigit over the ASCII range: a non-empty string of
decimal digits. -/
def isdigitStr (s : String) : Bool :=
  !s.isEmpty && s.toList.all Char.isDigit

/-- Python str.rstrip with a period argument: remove every trailing
period character (not only one). -/
def rstripDot (s : String) : String :=
  ((s.toList.reverse.dropWhile (fun c => c = '.')).reverse).asString

/-- The integer sort key of sort_games_by_rank: if the rank text is
non-empty and, after removing every trailing period, consists solely of
digits, its numeric value; otherwise 0. -/
def rank_key (g : Game) : Nat :=
  match g.rank with
  | none => 0
  | some r => if (r != "") && isdigitStr (rstripDot r) then digitsToNat (rstripDot r).toList else 0

/-- Key ordering used by the final sort. -/
def rankLE (a b : Game) : Prop := rank_key a ≤ rank_key b

instance : DecidableRel rankLE := fun a b => Nat.decLe (rank_key a) (rank_key b)

instance : IsTotal Game rankLE := ⟨fun a b => Nat.le_total (rank_key a) (rank_key b)⟩

instance : IsTrans Game rankLE := ⟨fun _ _ _ => Nat.le_trans⟩

/-- Python sorted(games, key=rank_key): a stable sort, ascending by the
rank key.  Modelled by insertion sort, which is stable. -/
def sort_games_by_rank (games : List Game) : List Game :=
  List.insertionSort rankLE games

/-- Lower-cased three-letter month abbreviation, per the C locale names
the strptime directive %b accepts (case-insensitively). -/
def monthAbbrevNum (s : String) : Option Nat :=
  if s = "jan" then some 1
  else if s = "feb" then some 2
  else if s = "mar" then some 3
  else if s = "apr" then some 4
  else if s = "may" then some 5
  else if s = "jun" then some 6
  else if s = "jul" then some 7
  else if s = "aug" then some 8
  else if s = "sep" then some 9
  else if s = "oct" then some 10
  else if s = "nov" then some 11
  else if s = "dec" then some 12
  else none

def isLeapYear (y : Nat) : Bool :=
  y % 4 == 0 && (y % 100 != 0 || y % 400 == 0)

def daysInMonth (y m : Nat) : Nat :=
  if m == 2 then (if isLeapYear y then 29 else 28)
  else if m == 4 || m == 6 || m == 9 || m == 11 then 30
  else 31

/-- One-or-more whitespace, as the blank inside the strptime format
demands; returns the remainder after the whitespace run. -/
def skipWs1 : List Char → Option (List Char)
  | [] => none
  | c :: cs => if c.isWhitespace then some (cs.dropWhile Char.isWhitespace) else none

/-- Day-of-month per the strptime directive %d (1 or 2 digits, value 1 to 31,
longest alternative first); returns the day and the remainder. -/
def parseDay : List Char → Option (Nat × List Char)
  | c1 :: c2 :: rest =>
    if c1 = '3' ∧ (c2 = '0' ∨ c2 = '1') then some (digitsToNat [c1, c2], rest)
    else if (c1 = '1' ∨ c1 = '2') ∧ c2.isDigit then some (digitsToNat [c1, c2], rest)
    else if c1 = '0' ∧ c2.isDigit ∧ c2 ≠ '0' then some (digitsToNat [c2], rest)
    else if c1.isDigit ∧ c1 ≠ '0' then some (digitsToNat [c1], c2 :: rest)
    else none
  | [c1] => if c1.isDigit ∧ c1 ≠ '0' then some (digitsToNat [c1], []) else none
  | [] => none

/-- datetime.strptime(s, "%b %d, %Y"): month abbreviation, whitespace,
day, comma, whitespace, exactly four year digits, end of input; the
datetime constructor then validates the calendar date (year at least 1,
day within the length of the month).  `none` models the ValueError that
parse_games catches. -/
def strptimeMonthDayYear (s : String) : Option PyDate :=
  match s.toList with
  | m1 :: m2 :: m3 :: rest =>
    match monthAbbrevNum (String.mk [m1.toLower, m2.toLower, m3.toLower]) with
    | none => none
    | some month =>
      match skipWs1 rest with
      | none => none
      | some rest2 =>
        match parseDay rest2 with
        | none => none
        | some (day, rest3) =>
          match rest3 with
          | ',' :: rest4 =>
            match skipWs1 rest4 with
            | none => none
            | some rest5 =>
              match rest5 with
              | [y1, y2, y3, y4] =>
                if y1.isDigit ∧ y2.isDigit ∧ y3.isDigit ∧ y4.isDigit then
                  let year := digitsToNat [y1, y2, y3, y4]
                  if 1 ≤ year ∧ day ≤ daysInMonth year month then
                    some ⟨year, month, day⟩
                  else none
                else none
              | _ => none
          | _ => none
  | _ => none

/-- Extraction of a single qualifying card into a Game, following the body
of the parse_games loop: rank and title are the stripped sub-element texts,
the date degrades to `none` on absence, emptiness or parse failure, the
href is prefixed with the fixed origin when origin-relative, and the
metascore is int() of the stripped score text - whose failure is an
uncaught ValueError, modelled as `none` for the whole card. -/
def parse_card (card : Card) : Option Game :=
  let url : Option String :=
    card.href.map (fun u =>
      if u.toList.head? = some '/' then "https://www.metacritic.com" ++ u else u)
  let date : Option PyDate :=
    match card.dateText with
    | none => none
    | some t => if pyStrip t = "" then none else strptimeMonthDayYear (pyStrip t)
  match card.scoreText with
  | none =>
    some { rank := Option.map pyStrip card.rankText,
           title := Option.map pyStrip card.titleText,
           release_date := date, metascore := none, url := url }
  | some t =>
    match pyInt (pyStrip t) with
    | none => none
    | some n =>
      some { rank := Option.map pyStrip card.rankText,
             title := Option.map pyStrip card.titleText,
             release_date := date, metascore := some n, url := url }

/-- parse_games: walk the cards of the page in order, skip those without the
must-play marker, extract each marked one; `none` models the uncaught
ValueError escaping the whole call when any marked card whose score text fails
int(). -/
def parse_games : List Card → Option (List Game)
  | [] => some []
  | c :: cs =>
    if c.mustPlay then
      match parse_card c with
      | none => none
      | some g => (parse_games cs).map (fun gs => g :: gs)
    else parse_games cs

/-- Attempt to match the regular expression (\d+)\s+Critic at the head of
the character list: a maximal run of one or more digits, a run of one or
more whitespace characters, then the literal Critic. -/
def criticMatchAt (cs : List Char) : Option Nat :=
  let digits := cs.takeWhile Char.isDigit
  let rest1 := cs.dropWhile Char.isDigit
  if digits.isEmpty then none
  else
    let ws := rest1.takeWhile Char.isWhitespace
    let rest2 := rest1.dropWhile Char.isWhitespace
    if ws.isEmpty then none
    else if List.isPrefixOf "Critic".toList rest2 then some (digitsToNat digits)
    else none

/-- re.search for (\d+)\s+Critic: try each start position from the left,
return the captured count of the first (leftmost) match. -/
def criticSearch : List Char → Option Nat
  | [] => none
  | c :: cs =>
    match criticMatchAt (c :: cs) with
    | some n => some n
    | none => criticSearch cs

/-- parse_critic_reviews over a detail-page body, abstracted as the
stripped text of the a[data-testid="critic-path"] span element when that
element is present (`none` when absent): the first count matching the
fixed count-then-label pattern, if any. -/
def parse_critic_reviews (body : Option String) : Option Nat :=
  body.bind (fun txt => criticSearch txt.toList)

/-- fetch_critic_reviews: enrich one game in place.  A falsy url (absent
or empty) means return at once; a failed detail fetch (`none` from the
oracle) leaves the game untouched; a successful fetch overwrites
critic_reviews with whatever parse_critic_reviews yields. -/
def fetch_critic_reviews (dfetch : String → Option (Option String)) (game : Game) : Game :=
  match game.url with
  | none => game
  | some u =>
    if u = "" then game
    else
      match dfetch u with
      | none => game
      | some body => { game with critic_reviews := parse_critic_reviews body }

/-- fetch_reviews_for_games: enrich every game of the collection, none is
ever dropped. -/
def fetch_reviews_for_games (dfetch : String → Option (Option String)) (games : List Game) : List Game :=
  games.map (fetch_critic_reviews dfetch)

/-- Does this fetch outcome let the traversal continue past the page?  A
failed fetch is skipped (continue), a page parsing to one or more games
accumulates and continues; a page parsing to zero games stops, and an
uncaught extraction error aborts. -/
def nonStopping (res : Option (List Card)) : Bool :=
  match res with
  | none => true
  | some body =>
    match parse_games body with
    | none => false
    | some [] => false
    | some (_ :: _) => true

/-- The records a single fetched page contributes to the accumulator: none
for a failed fetch, its parsed games otherwise. -/
def pageRecords (res : Option (List Card)) : List Game :=
  match res with
  | none => []
  | some body => (parse_games body).getD []

/-- The sequential loop of scrape_games over an explicit list of page
indices, with the accumulator threaded through.  Returns the final
accumulator (`none` when an extraction error escaped) and the trace of
pages on which fetch_page was invoked. -/
def scrape_games_go (fetch : Nat → Option (List Card)) :
    List Nat → List Game → Option (List Game) × List Nat
  | [], acc => (some acc, [])
  | p :: ps, acc =>
    match fetch p with
    | none =>
      let r := scrape_games_go fetch ps acc
      (r.1, p :: r.2)
    | some body =>
      match parse_games body with
      | none => (none, [p])
      | some [] => (some acc, [p])
      | some (g :: gs) =>
        let r := scrape_games_go fetch ps (acc ++ g :: gs)
        (r.1, p :: r.2)

/-- scrape_games: sequential traversal of pages start..stop inclusive
(range(start, stop + 1)), skipping failed fetches, stopping at the first
empty page, accumulating in page order. -/
def scrape_games (fetch : Nat → Option (List Card)) (start stop : Nat) : Option (List Game) :=
  (scrape_games_go fetch (List.range' start (stop + 1 - start)) []).1

/-- The pages the sequential traversal actually fetches. -/
def pages_fetched (fetch : Nat → Option (List Card)) (start stop : Nat) : List Nat :=
  (scrape_games_go fetch (List.range' start (stop + 1 - start)) []).2

/-- The page indices for which the task-creation loop of
scrape_games_async schedules a fetch: every page of
range(start, stop + 1), before any body is examined. -/
def scheduled_pages (start stop : Nat) : List Nat :=
  List.range' start (stop + 1 - start)

/-- The aggregation loop of scrape_games_async: walk the already-fetched
bodies in page-index order, skip failures, break at the first empty page,
accumulate otherwise. -/
def aggregate_pages : List (Option (List Card)) → List Game → Option (List Game)
  | [], acc => some acc
  | res :: rest, acc =>
    match res with
    | none => aggregate_pages rest acc
    | some body =>
      match parse_games body with
      | none => none
      | some [] => some acc
      | some (g :: gs) => aggregate_pages rest (acc ++ g :: gs)

/-- scrape_games_async: fetch every page of the range up front, then
aggregate the returned bodies in index order. -/
def scrape_games_async (fetch : Nat → Option (List Card)) (start stop : Nat) : Option (List Game) :=
  aggregate_pages ((scheduled_pages start stop).map fetch) []

/- Auxiliary lemmas about the two traversal loops. -/

theorem scrape_games_go_append (fetch : Nat → Option (List Card)) (pres rest : List Nat)
    (acc : List Game) (h : ∀ p ∈ pres, nonStopping (fetch p) = true) :
    scrape_games_go fetch (pres ++ rest) acc =
      ((scrape_games_go fetch rest
          (acc ++ pres.flatMap (fun p => pageRecords (fetch p)))).1,
        pres ++ (scrape_games_go fetch rest
          (acc ++ pres.flatMap (fun p => pageRecords (fetch p)))).2) := by
  induction pres generalizing acc with
  | nil => simp
  | cons p ps ih =>
    have hp := h p (List.mem_cons_self p ps)
    have hps : ∀ q ∈ ps, nonStopping (fetch q) = true :=
      fun q hq => h q (List.mem_cons_of_mem p hq)
    cases hf : fetch p with
    | none =>
      simp [scrape_games_go, hf, ih _ hps, pageRecords]
    | some body =>
      cases hpg : parse_games body with
      | none => simp [nonStopping, hf, hpg] at hp
      | some gs =>
        cases gs with
        | nil => simp [nonStopping, hf, hpg] at hp
        | cons g gs' =>
          simp [scrape_games_go, hf, hpg, ih _ hps, pageRecords, List.append_assoc]

theorem aggregate_pages_append (pres rest : List (Option (List Card)))
    (acc : List Game) (h : ∀ r ∈ pres, nonStopping r = true) :
    aggregate_pages (pres ++ rest) acc =
      aggregate_pages rest (acc ++ pres.flatMap pageRecords) := by
  induction pres generalizing acc with
  | nil => simp
  | cons r rs ih =>
    have hr := h r (List.mem_cons_self r rs)
    have hrs : ∀ q ∈ rs, nonStopping q = true :=
      fun q hq => h q (List.mem_cons_of_mem r hq)
    cases r with
    | none =>
      simp [aggregate_pages, ih _ hrs, pageRecords]
    | some body =>
      cases hpg : parse_games body with
      | none => simp [nonStopping, hpg] at hr
      | some gs =>
        cases gs with
        | nil => simp [nonStopping, hpg] at hr
        | cons g gs' =>
          simp [aggregate_pages, hpg, ih _ hrs, pageRecords, List.append_assoc]

theorem scrape_games_go_fst_eq_aggregate (fetch : Nat → Option (List Card))
    (ps : List Nat) (acc : List Game) :
    (scrape_games_go fetch ps acc).1 = aggregate_pages (ps.map fetch) acc := by
  induction ps generalizing acc with
  | nil => simp [scrape_games_go, aggregate_pages]
  | cons p ps ih =>
    cases hf : fetch p with
    | none => simp [scrape_games_go, aggregate_pages, hf, ih]
    | some body =>
      cases hpg : parse_games body with
      | none => simp [scrape_games_go, aggregate_pages, hf, hpg]
      | some gs =>
        cases gs with
        | nil => simp [scrape_games_go, aggregate_pages, hf, hpg]
        | cons g gs' => simp [scrape_games_go, aggregate_pages, hf, hpg, ih]

theorem range'_split_at (s p n : Nat) (h1 : s ≤ p) (h2 : p < s + n) :
    List.range' s n = List.range' s (p - s) ++ p :: List.range' (p + 1) (s + n - p - 1) := by
  have hle : p - s ≤ n := by omega
  have h3 : n - (p - s) = (s + n - p - 1) + 1 := by omega
  have h4 : s + (p - s) = p := by omega
  have h5 : n = (n - (p - s)) + (p - s) := by omega
  calc List.range' s n
      = List.range' s ((n - (p - s)) + (p - s)) := by rw [← h5]
    _ = List.range' s (p - s) ++ List.range' (s + (p - s)) (n - (p - s)) :=
        (List.range'_append_1 s (p - s) (n - (p - s))).symm
    _ = List.range' s (p - s) ++ p :: List.range' (p + 1) (s + n - p - 1) := by
        rw [h4, h3, List.range'_succ]

/- Auxiliary lemmas about the stable sort. -/

theorem filter_orderedInsert_rank (k : Nat) (g : Game) (l : List Game) :
    (List.orderedInsert rankLE g l).filter (fun x => rank_key x == k) =
      if rank_key g == k then g :: l.filter (fun x => rank_key x == k)
      else l.filter (fun x => rank_key x == k) := by
  induction l with
  | nil =>
    by_cases hgk : rank_key g = k
    · simp [List.orderedInsert, List.filter, beq_iff_eq.mpr hgk, hgk]
    · have h1 : (rank_key g == k) = false := by rw [beq_eq_false_iff_ne]; exact hgk
      simp [List.orderedInsert, List.filter, h1, hgk]
  | cons b l ih =>
    by_cases hgb : rankLE g b
    · simp only [List.orderedInsert, if_pos hgb, List.filter_cons]
    · have hbg : rank_key b < rank_key g := Nat.lt_of_not_le hgb
      simp only [List.orderedInsert, if_neg hgb, List.filter_cons, ih]
      by_cases hgk : rank_key g = k
      · have h1 : (rank_key g == k) = true := beq_iff_eq.mpr hgk
        have h2 : (rank_key b == k) = false := by
          rw [beq_eq_false_iff_ne]; omega
        simp [h1, h2]
      · have h1 : (rank_key g == k) = false := by
          rw [beq_eq_false_iff_ne]; exact hgk
        simp [h1]

theorem filter_sort_games_by_rank (k : Nat) (l : List Game) :
    (sort_games_by_rank l).filter (fun x => rank_key x == k) =
      l.filter (fun x => rank_key x == k) := by
  induction l with
  | nil => rfl
  | cons g l ih =>
    simp only [sort_games_by_rank, List.insertionSort] at *
    rw [filter_orderedInsert_rank, ih, List.filter_cons]

theorem sort_games_by_rank_perm (l : List Game) : (sort_games_by_rank l).Perm l :=
  List.perm_insertionSort rankLE l

theorem sort_games_by_rank_sorted (l : List Game) :
    List.Sorted rankLE (sort_games_by_rank l) :=
  List.sorted_insertionSort rankLE l

/- Auxiliary lemmas about the extractor. -/

theorem parse_card_eq_none_iff (c : Card) :
    parse_card c = none ↔ ∃ t, c.scoreText = some t ∧ pyInt (pyStrip t) = none := by
  cases hs : c.scoreText with
  | none => simp [parse_card, hs]
  | some t =>
    cases hp : pyInt (pyStrip t) with
    | none => simp [parse_card, hs, hp]
    | some n => simp [parse_card, hs, hp]

theorem parse_games_forall2 (cards : List Card) (gs : List Game)
    (h : parse_games cards = some gs) :
    List.Forall₂ (fun c g => parse_card c = some g)
      (cards.filter (fun c => c.mustPlay)) gs := by
  induction cards generalizing gs with
  | nil =>
    simp only [parse_games, Option.some_inj] at h
    subst h
    simp
  | cons c cs ih =>
    by_cases hm : c.mustPlay = true
    · cases hpc : parse_card c with
      | none => simp [parse_games, hm, hpc] at h
      | some g =>
        cases hps : parse_games cs with
        | none => simp [parse_games, hm, hpc, hps] at h
        | some gs' =>
          simp [parse_games, hm, hpc, hps] at h
          subst h
          have hf : List.filter (fun c => c.mustPlay) (c :: cs) =
              c :: List.filter (fun c => c.mustPlay) cs := by
            simp [List.filter_cons, hm]
          rw [hf]
          exact List.Forall₂.cons hpc (ih gs' hps)
    · simp only [parse_games, hm, if_false, Bool.false_eq_true] at h
      have hf : List.filter (fun c => c.mustPlay) (c :: cs) =
          List.filter (fun c => c.mustPlay) cs := by
        simp [List.filter_cons, hm]
      rw [hf]
      exact ih gs h

theorem parse_games_err (cards : List Card) (c : Card) (hc : c ∈ cards)
    (hm : c.mustPlay = true) (hpc : parse_card c = none) :
    parse_games cards = none := by
  induction cards with
  | nil => cases hc
  | cons d ds ih =>
    rcases List.mem_cons.mp hc with rfl | hmem
    · simp [parse_games, hm, hpc]
    · by_cases hd : d.mustPlay = true
      · cases hpd : parse_card d with
        | none => simp [parse_games, hd, hpd]
        | some g => simp [parse_games, hd, hpd, ih hmem]
      · simp [parse_games, hd, ih hmem]

/- Claim C1: duplicate records in the final output. -/

/-- A qualifying card that several listing pages may serve. -/
def dupCard : Card :=
  { mustPlay := true, rankText := some "1.", titleText := some "A",
    dateText := none, scoreText := none, href := none }

/-- The record dupCard extracts to. -/
def dupGame : Game :=
  { rank := some "1.", title := some "A", release_date := none,
    metascore := none, url := none, critic_reviews := none }

/-- A fetch oracle under which every listing page serves the same single
qualifying card. -/
def dupFetch : Nat → Option (List Card) := fun _ => some [dupCard]

/-- C1 counterexample: in a run over pages 1..2 in which both pages serve
the same qualifying card, the aggregated and sorted dataset holds that
record twice: the final output is not duplicate-free, because nothing in
the pipeline deduplicates. -/
theorem c1_counterexample :
    (scrape_games dupFetch 1 2).map sort_games_by_rank = some [dupGame, dupGame] ∧
    ¬ ([dupGame, dupGame] : List Game).Nodup :=
  ⟨rfl, by decide⟩

/-- C1 (amended): no deduplication is performed: the final sort preserves
the multiplicity of every record of the aggregated working collection, so
a record extracted from several pages appears several times in the final
output. -/
theorem c1_final_output_preserves_multiplicity (fetch : Nat → Option (List Card))
    (start stop : Nat) (l : List Game) (h : scrape_games fetch start stop = some l)
    (g : Game) : (sort_games_by_rank l).count g = l.count g :=
  (sort_games_by_rank_perm l).count_eq g

/-- Witness for c1_final_output_preserves_multiplicity, at the duplicate
run of c1_counterexample. -/
theorem c1_witness :
    scrape_games dupFetch 1 2 = some [dupGame, dupGame] ∧
    (sort_games_by_rank [dupGame, dupGame]).count dupGame =
      ([dupGame, dupGame] : List Game).count dupGame :=
  ⟨rfl, c1_final_output_preserves_multiplicity dupFetch 1 2 [dupGame, dupGame] rfl dupGame⟩

/- Claim C2: the rank-key rule. -/

/-- Modelled from the spec, section 3: the sort key obtained by stripping
at most ONE trailing period and parsing the remainder as a non-negative
integer, with 0 on failure.  Stated only for comparison with rank_key,
the key the code computes. -/
def specRankKeyOneDot (r : Option String) : Nat :=
  match r with
  | none => 0
  | some s =>
    let cs := if s.toList.getLast? = some '.' then s.toList.dropLast else s.toList
    if cs ≠ [] ∧ cs.all Char.isDigit then digitsToNat cs else 0

/-- The rank-key rule with EVERY trailing period stripped before the
non-negative-integer parse, which is what rstrip does. -/
def specRankKeyAllDots (r : Option String) : Nat :=
  match r with
  | none => 0
  | some s =>
    let cs := (s.toList.reverse.dropWhile (fun c => c = '.')).reverse
    if cs ≠ [] ∧ cs.all Char.isDigit then digitsToNat cs else 0

theorem rank_key_eq_specAllDots (g : Game) : rank_key g = specRankKeyAllDots g.rank := by
  rcases g with ⟨r, _, _, _, _, _⟩
  cases r with
  | none => rfl
  | some s =>
    show (if (s != "") && isdigitStr (rstripDot s) then
        digitsToNat (rstripDot s).toList else 0) =
      (if (s.toList.reverse.dropWhile (fun c => c = '.')).reverse ≠ [] ∧
          ((s.toList.reverse.dropWhile (fun c => c = '.')).reverse).all Char.isDigit then
        digitsToNat ((s.toList.reverse.dropWhile (fun c => c = '.')).reverse) else 0)
    rw [show rstripDot s =
      ((s.toList.reverse.dropWhile (fun c => c = '.')).reverse).asString from rfl]
    set cs := (s.toList.reverse.dropWhile (fun c => c = '.')).reverse with hcs
    rw [List.toList_asString]
    by_cases hnil : cs = []
    · simp [hnil, String.asString_nil, isdigitStr]
      intro _ _
      rfl
    · have h1 : (cs.asString).isEmpty = false := by
        rw [Bool.eq_false_iff]
        intro hh
        exact hnil (by
          simpa [String.asString_nil] using
            List.asString_inj.mp ((String.isEmpty_iff _).mp hh ▸ rfl : cs.asString = ""))
      have h2 : s ≠ "" := by
        intro hs0
        subst hs0
        exact hnil hcs
      have h3 : (s != "") = true := bne_iff_ne.mpr h2
      have h4 : isdigitStr cs.asString = cs.all Char.isDigit := by
        simp [isdigitStr, h1, List.toList_asString]
        rfl
      rw [h3, h4]
      by_cases hall : cs.all Char.isDigit = true
      · simp [hall, hnil]
      · simp [hall, hnil]

/-- A record carrying only a rank label, for exercising the key rule. -/
def rankOnly (r : Option String) : Game :=
  { rank := r, title := none, release_date := none, metascore := none }

/-- C2 counterexample: on the rank text "12.." the code strips BOTH
trailing periods and yields the key 12, while the claimed
strip-one-period rule leaves "12.", fails the non-negative-integer parse,
and yields 0: the claimed rule disagrees with the code. -/
theorem c2_counterexample :
    rank_key (rankOnly (some "12..")) = 12 ∧
    specRankKeyOneDot (some "12..") = 0 := by
  constructor <;> decide

/-- C2 (amended): the integer sort key is computed from the rank text by
stripping EVERY trailing period and parsing the remainder as a
non-negative integer, 0 whenever that fails; in particular "12." maps to
12, "7" to 7, and "", "N/A" and an absent rank map to 0. -/
theorem c2_rank_key_strips_all_trailing_periods :
    (∀ g : Game, rank_key g = specRankKeyAllDots g.rank) ∧
    rank_key (rankOnly (some "12.")) = 12 ∧
    rank_key (rankOnly (some "7")) = 7 ∧
    rank_key (rankOnly (some "")) = 0 ∧
    rank_key (rankOnly (some "N/A")) = 0 ∧
    rank_key (rankOnly none) = 0 :=
  ⟨rank_key_eq_specAllDots, by decide, by decide, by decide, by decide, by decide⟩

/- Claim C3: a qualifying fragment with a malformed score field. -/

/-- A qualifying card whose score sub-element text is non-numeric. -/
def badScoreCard : Card :=
  { mustPlay := true, rankText := some "1.", titleText := some "Game",
    dateText := some "Jan 02, 2020", scoreText := some "N/A", href := some "/g" }

/-- C3 counterexample: on a page holding one qualifying card whose score
text "N/A" is non-numeric, the whole page extraction fails (the int()
ValueError is not caught): no record is emitted at all, contradicting the
claim that the record is still emitted with the score absent. -/
theorem c3_counterexample :
    badScoreCard.mustPlay = true ∧
    pyInt (pyStrip "N/A") = none ∧
    parse_games [badScoreCard] = none :=
  ⟨rfl, by decide, by decide⟩

/-- C3 (amended): for every qualifying fragment whose score sub-element is
present with non-numeric text, the int() failure escapes: extraction of
the whole page fails and no record of that page is emitted.  (A score
degrades to absent only when the score sub-element itself is absent.) -/
theorem c3_bad_score_aborts_page_extraction (cards : List Card) (c : Card)
    (hc : c ∈ cards) (hm : c.mustPlay = true) (t : String)
    (ht : c.scoreText = some t) (hbad : pyInt (pyStrip t) = none) :
    parse_games cards = none :=
  parse_games_err cards c hc hm ((parse_card_eq_none_iff c).mpr ⟨t, ht, hbad⟩)

/-- Witness for c3_bad_score_aborts_page_extraction at badScoreCard. -/
theorem c3_witness :
    badScoreCard ∈ [badScoreCard] ∧ badScoreCard.mustPlay = true ∧
    badScoreCard.scoreText = some "N/A" ∧ pyInt (pyStrip "N/A") = none ∧
    parse_games [badScoreCard] = none :=
  ⟨List.mem_singleton.mpr rfl, rfl, rfl, by decide,
    c3_bad_score_aborts_page_extraction [badScoreCard] badScoreCard
      (List.mem_singleton.mpr rfl) rfl "N/A" rfl (by decide)⟩

/- Claim C4: records correspond exactly to marker-carrying fragments. -/

theorem forall2_exists_left {α β : Type} {R : α → β → Prop} :
    ∀ {xs : List α} {ys : List β}, List.Forall₂ R xs ys → ∀ y ∈ ys, ∃ x ∈ xs, R x y := by
  intro xs ys h
  induction h with
  | nil => intro y hy; cases hy
  | cons hR _ ih =>
    intro y hy
    rcases List.mem_cons.mp hy with rfl | hy2
    · exact ⟨_, List.mem_cons_self _ _, hR⟩
    · rcases ih y hy2 with ⟨x, hx, hxy⟩
      exact ⟨x, List.mem_cons_of_mem _ hx, hxy⟩

/-- C4: when the extraction of a listing page succeeds, its PageResult
holds exactly one record per must-play-marked fragment, in page order
(the Forall₂ correspondence with the marked sublist), and every record
originates from a marked fragment: fragments lacking the marker are never
materialized. -/
theorem c4_record_iff_marker (cards : List Card) (gs : List Game)
    (h : parse_games cards = some gs) :
    List.Forall₂ (fun c g => parse_card c = some g)
      (cards.filter (fun c => c.mustPlay)) gs ∧
    gs.length = (cards.filter (fun c => c.mustPlay)).length ∧
    ∀ g ∈ gs, ∃ c ∈ cards, c.mustPlay = true ∧ parse_card c = some g := by
  have h2 := parse_games_forall2 cards gs h
  refine ⟨h2, h2.length_eq.symm, ?_⟩
  intro g hg
  rcases forall2_exists_left h2 g hg with ⟨c, hcf, hcg⟩
  rcases List.mem_filter.mp hcf with ⟨hcc, hcm⟩
  exact ⟨c, hcc, by simpa using hcm, hcg⟩

/-- A marker-carrying card used by the C4 witness. -/
def markedCard : Card :=
  { mustPlay := true, rankText := some "2.", titleText := some "B",
    dateText := none, scoreText := some "88", href := none }

/-- A card without the marker, used by the C4 witness. -/
def unmarkedCard : Card :=
  { mustPlay := false, rankText := some "3.", titleText := some "C",
    dateText := none, scoreText := none, href := none }

/-- The record markedCard extracts to. -/
def markedGame : Game :=
  { rank := some "2.", title := some "B", release_date := none,
    metascore := some 88, url := none, critic_reviews := none }

/-- Witness for c4_record_iff_marker on a page with one marked and one
unmarked card: exactly the marked one materializes. -/
theorem c4_witness :
    parse_games [markedCard, unmarkedCard] = some [markedGame] ∧
    (List.Forall₂ (fun c g => parse_card c = some g)
        ([markedCard, unmarkedCard].filter (fun c => c.mustPlay)) [markedGame] ∧
      [markedGame].length =
        ([markedCard, unmarkedCard].filter (fun c => c.mustPlay)).length ∧
      ∀ g ∈ [markedGame], ∃ c ∈ [markedCard, unmarkedCard],
        c.mustPlay = true ∧ parse_card c = some g) :=
  ⟨rfl, c4_record_iff_marker [markedCard, unmarkedCard] [markedGame] rfl⟩

/- Claim C5: sequential early stop. -/

/-- C5: in sequential mode, when every page before p lets traversal
continue (failed fetch, or one or more extracted records) and page p is
fetched successfully and extracts zero records, the traversal terminates
at p: exactly the pages start..p are fetched - later pages in the range
never are - and the output is exactly the page-ordered concatenation of
the records accumulated from the earlier pages. -/
theorem c5_sequential_early_stop (fetch : Nat → Option (List Card))
    (start stop p : Nat) (h1 : start ≤ p) (h2 : p ≤ stop)
    (hpre : ∀ q ∈ List.range' start (p - start), nonStopping (fetch q) = true)
    (body : List Card) (hp : fetch p = some body)
    (hempty : parse_games body = some []) :
    scrape_games fetch start stop =
      some ((List.range' start (p - start)).flatMap (fun q => pageRecords (fetch q))) ∧
    pages_fetched fetch start stop = List.range' start (p - start + 1) := by
  have harith : start + (stop + 1 - start) - p - 1 = stop - p := by omega
  have hsplit : List.range' start (stop + 1 - start) =
      List.range' start (p - start) ++ p :: List.range' (p + 1) (stop - p) := by
    have h := range'_split_at start p (stop + 1 - start) h1 (by omega)
    rwa [harith] at h
  have hgo := scrape_games_go_append fetch (List.range' start (p - start))
    (p :: List.range' (p + 1) (stop - p)) [] hpre
  have hstep : scrape_games_go fetch (p :: List.range' (p + 1) (stop - p))
      ([] ++ (List.range' start (p - start)).flatMap (fun q => pageRecords (fetch q))) =
      (some ([] ++ (List.range' start (p - start)).flatMap (fun q => pageRecords (fetch q))),
        [p]) := by
    simp [scrape_games_go, hp, hempty]
  have hsingle : List.range' start (p - start) ++ [p] =
      List.range' start (p - start + 1) := by
    have h := List.range'_append_1 start (p - start) 1
    rw [show start + (p - start) = p by omega] at h
    simpa [Nat.add_comm] using h
  constructor
  · show (scrape_games_go fetch (List.range' start (stop + 1 - start)) []).1 = _
    rw [hsplit, hgo, hstep]
    simp
  · show (scrape_games_go fetch (List.range' start (stop + 1 - start)) []).2 = _
    rw [hsplit, hgo, hstep]
    simpa using hsingle

/-- A fetch oracle for the traversal witnesses: page 2 fails, page 3 is
empty, every other page serves one qualifying card. -/
def stopFetch : Nat → Option (List Card) := fun q =>
  if q = 2 then none else if q = 3 then some [] else some [dupCard]

/-- Witness for c5_sequential_early_stop: over pages 1..5 with stopFetch,
traversal stops at the empty page 3; only pages 1..3 are fetched. -/
theorem c5_witness :
    (∀ q ∈ List.range' 1 (3 - 1), nonStopping (stopFetch q) = true) ∧
    stopFetch 3 = some [] ∧ parse_games ([] : List Card) = some [] ∧
    (scrape_games stopFetch 1 5 =
        some ((List.range' 1 (3 - 1)).flatMap (fun q => pageRecords (stopFetch q))) ∧
      pages_fetched stopFetch 1 5 = List.range' 1 (3 - 1 + 1)) :=
  ⟨by decide, rfl, rfl,
    c5_sequential_early_stop stopFetch 1 5 3 (by decide) (by decide) (by decide) [] rfl rfl⟩

/- Claim C6: concurrent mode schedules everything, suppresses after the
first empty page. -/

/-- C6: in bounded-concurrent mode a fetch is scheduled up front for every
page index of [start, stop] (and only those), and when every page before p
lets aggregation continue while page p is fetched successfully and
extracts zero records, the aggregation - which walks the already-fetched
bodies in index order - returns exactly the records of the pages before p,
suppressing every page at or after p. -/
theorem c6_concurrent_schedule_and_suppress (fetch : Nat → Option (List Card))
    (start stop p : Nat) (h1 : start ≤ p) (h2 : p ≤ stop)
    (hpre : ∀ q ∈ List.range' start (p - start), nonStopping (fetch q) = true)
    (body : List Card) (hp : fetch p = some body)
    (hempty : parse_games body = some []) :
    (∀ q : Nat, q ∈ scheduled_pages start stop ↔ start ≤ q ∧ q ≤ stop) ∧
    scrape_games_async fetch start stop =
      some ((List.range' start (p - start)).flatMap (fun q => pageRecords (fetch q))) := by
  constructor
  · intro q
    rw [scheduled_pages, List.mem_range']
    constructor
    · rintro ⟨i, hi, rfl⟩; omega
    · rintro ⟨hq1, hq2⟩; exact ⟨q - start, by omega, by omega⟩
  · have harith : start + (stop + 1 - start) - p - 1 = stop - p := by omega
    have hsplit : List.range' start (stop + 1 - start) =
        List.range' start (p - start) ++ p :: List.range' (p + 1) (stop - p) := by
      have h := range'_split_at start p (stop + 1 - start) h1 (by omega)
      rwa [harith] at h
    have hpre' : ∀ r ∈ (List.range' start (p - start)).map fetch,
        nonStopping r = true := by
      intro r hr
      rcases List.mem_map.mp hr with ⟨q, hq, rfl⟩
      exact hpre q hq
    show aggregate_pages ((List.range' start (stop + 1 - start)).map fetch) [] = _
    rw [hsplit, List.map_append, aggregate_pages_append _ _ _ hpre', List.map_cons, hp]
    simp [aggregate_pages, hempty, List.flatMap_map]

/-- Witness for c6_concurrent_schedule_and_suppress with stopFetch over
pages 1..4: all four pages are scheduled, but only the records of pages
1..2 are accumulated. -/
theorem c6_witness :
    (∀ q ∈ List.range' 1 (3 - 1), nonStopping (stopFetch q) = true) ∧
    stopFetch 3 = some [] ∧ parse_games ([] : List Card) = some [] ∧
    ((∀ q : Nat, q ∈ scheduled_pages 1 4 ↔ 1 ≤ q ∧ q ≤ 4) ∧
      scrape_games_async stopFetch 1 4 =
        some ((List.range' 1 (3 - 1)).flatMap (fun q => pageRecords (stopFetch q)))) :=
  ⟨by decide, rfl, rfl,
    c6_concurrent_schedule_and_suppress stopFetch 1 4 3 (by decide) (by decide)
      (by decide) [] rfl rfl⟩

/- Claim C7: a failed fetch is skipped in both modes. -/

theorem scrape_games_go_skip (fetch : Nat → Option (List Card)) (p : Nat)
    (hfail : fetch p = none) :
    ∀ (pre post : List Nat) (acc : List Game),
      (scrape_games_go fetch (pre ++ p :: post) acc).1 =
        (scrape_games_go fetch (pre ++ post) acc).1 := by
  intro pre
  induction pre with
  | nil =>
    intro post acc
    simp [scrape_games_go, hfail]
  | cons q qs ih =>
    intro post acc
    cases hq : fetch q with
    | none => simp [scrape_games_go, hq, ih]
    | some body =>
      cases hb : parse_games body with
      | none => simp [scrape_games_go, hq, hb]
      | some gs =>
        cases gs with
        | nil => simp [scrape_games_go, hq, hb]
        | cons g gs2 => simp [scrape_games_go, hq, hb, ih]

/-- C7: in both modes a failed listing fetch at page p never halts
traversal and never triggers the empty-page stop: the run over the range
[start, stop] returns exactly what the run over the same pages with p
removed returns - the failed page contributes no records, the sequential
controller advances past it, and the concurrent aggregation skips it so
later pages are still accumulated. -/
theorem c7_fetch_failure_never_halts (fetch : Nat → Option (List Card))
    (start stop p : Nat) (h1 : start ≤ p) (h2 : p ≤ stop)
    (hfail : fetch p = none) :
    scrape_games fetch start stop =
      (scrape_games_go fetch
        (List.range' start (p - start) ++ List.range' (p + 1) (stop - p)) []).1 ∧
    scrape_games_async fetch start stop =
      aggregate_pages
        ((List.range' start (p - start) ++ List.range' (p + 1) (stop - p)).map fetch)
        [] := by
  have harith : start + (stop + 1 - start) - p - 1 = stop - p := by omega
  have hsplit : List.range' start (stop + 1 - start) =
      List.range' start (p - start) ++ p :: List.range' (p + 1) (stop - p) := by
    have h := range'_split_at start p (stop + 1 - start) h1 (by omega)
    rwa [harith] at h
  constructor
  · show (scrape_games_go fetch (List.range' start (stop + 1 - start)) []).1 = _
    rw [hsplit]
    exact scrape_games_go_skip fetch p hfail _ _ []
  · show aggregate_pages ((List.range' start (stop + 1 - start)).map fetch) [] = _
    rw [← scrape_games_go_fst_eq_aggregate, ← scrape_games_go_fst_eq_aggregate, hsplit]
    exact scrape_games_go_skip fetch p hfail _ _ []

/-- Witness for c7_fetch_failure_never_halts at the failing page 2 of
stopFetch. -/
theorem c7_witness :
    stopFetch 2 = none ∧
    (scrape_games stopFetch 1 5 =
        (scrape_games_go stopFetch
          (List.range' 1 (2 - 1) ++ List.range' (2 + 1) (5 - 2)) []).1 ∧
      scrape_games_async stopFetch 1 5 =
        aggregate_pages
          ((List.range' 1 (2 - 1) ++ List.range' (2 + 1) (5 - 2)).map stopFetch) []) :=
  ⟨rfl, c7_fetch_failure_never_halts stopFetch 1 5 2 (by decide) (by decide) rfl⟩

/- Claim C8: the final sort is ascending by key and stable. -/

/-- C8: the final output is sorted ascending by the rank integer key, is a
permutation of the working collection, and records sharing a key
(including the degraded key 0) retain their relative working-collection
order: filtering the sorted output by any key value yields exactly the
same sequence as filtering the working collection. -/
theorem c8_sort_ascending_and_stable (l : List Game) :
    List.Sorted rankLE (sort_games_by_rank l) ∧
    (sort_games_by_rank l).Perm l ∧
    ∀ k : Nat, (sort_games_by_rank l).filter (fun g => rank_key g == k) =
      l.filter (fun g => rank_key g == k) :=
  ⟨sort_games_by_rank_sorted l, sort_games_by_rank_perm l,
    fun k => filter_sort_games_by_rank k l⟩

/- Claim C9: enrichment drops nothing and degrades gracefully. -/

theorem fetch_critic_reviews_spec (dfetch : String → Option (Option String))
    (g : Game) (hg : g.critic_reviews = none) :
    (fetch_critic_reviews dfetch g).rank = g.rank ∧
    (fetch_critic_reviews dfetch g).title = g.title ∧
    (fetch_critic_reviews dfetch g).release_date = g.release_date ∧
    (fetch_critic_reviews dfetch g).metascore = g.metascore ∧
    (fetch_critic_reviews dfetch g).url = g.url ∧
    (∀ u body, g.url = some u → u ≠ "" → dfetch u = some body →
      (fetch_critic_reviews dfetch g).critic_reviews = parse_critic_reviews body) ∧
    (∀ u, g.url = some u → u ≠ "" → dfetch u = none →
      (fetch_critic_reviews dfetch g).critic_reviews = none) ∧
    ((g.url = none ∨ g.url = some "") →
      (fetch_critic_reviews dfetch g).critic_reviews = none) := by
  cases hu : g.url with
  | none => simp [fetch_critic_reviews, hu, hg]
  | some u =>
    by_cases hue : u = ""
    · subst hue
      simp [fetch_critic_reviews, hu, hg]
      intro u body h1 h2 _
      exact absurd h1.symm h2
    · cases hd : dfetch u with
      | none =>
        simp [fetch_critic_reviews, hu, hue, hd, hg]
        intro u1 body h1 _ h3
        rw [← h1, hd] at h3
        cases h3
      | some body =>
        simp [fetch_critic_reviews, hu, hue, hd, hg]
        intro u1 body1 h1 _ h3
        rw [← h1, hd] at h3
        rw [Option.some.inj h3]

theorem fetch_reviews_forall2 (dfetch : String → Option (Option String)) :
    ∀ games : List Game, (∀ g ∈ games, g.critic_reviews = none) →
      List.Forall₂ (fun g g' =>
          g'.rank = g.rank ∧ g'.title = g.title ∧
          g'.release_date = g.release_date ∧ g'.metascore = g.metascore ∧
          g'.url = g.url ∧
          (∀ u body, g.url = some u → u ≠ "" → dfetch u = some body →
            g'.critic_reviews = parse_critic_reviews body) ∧
          (∀ u, g.url = some u → u ≠ "" → dfetch u = none →
            g'.critic_reviews = none) ∧
          ((g.url = none ∨ g.url = some "") → g'.critic_reviews = none))
        games (fetch_reviews_for_games dfetch games) := by
  intro games
  induction games with
  | nil => exact fun _ => List.Forall₂.nil
  | cons g gs ih =>
    intro hinit
    exact List.Forall₂.cons
      (fetch_critic_reviews_spec dfetch g (hinit g (List.mem_cons_self g gs)))
      (ih (fun x hx => hinit x (List.mem_cons_of_mem g hx)))

/-- C9: enrichment drops no record - the collection length is unchanged -
and for every record (entering the phase with critic_reviews absent, as
extraction leaves it): all fields other than critic_reviews are unchanged;
a record with a usable detail reference whose fetch succeeds gets
critic_reviews set to the first count matching the fixed pattern in the
body (absent when there is no match); a failed fetch, or an absent or
empty reference, leaves critic_reviews absent. -/
theorem c9_enrichment_never_drops (dfetch : String → Option (Option String))
    (games : List Game) (hinit : ∀ g ∈ games, g.critic_reviews = none) :
    (fetch_reviews_for_games dfetch games).length = games.length ∧
    List.Forall₂ (fun g g' =>
        g'.rank = g.rank ∧ g'.title = g.title ∧
        g'.release_date = g.release_date ∧ g'.metascore = g.metascore ∧
        g'.url = g.url ∧
        (∀ u body, g.url = some u → u ≠ "" → dfetch u = some body →
          g'.critic_reviews = parse_critic_reviews body) ∧
        (∀ u, g.url = some u → u ≠ "" → dfetch u = none →
          g'.critic_reviews = none) ∧
        ((g.url = none ∨ g.url = some "") → g'.critic_reviews = none))
      games (fetch_reviews_for_games dfetch games) :=
  ⟨by simp [fetch_reviews_for_games], fetch_reviews_forall2 dfetch games hinit⟩

/-- First of the three records queued for enrichment in the C9 witness. -/
def enrichedA : Game :=
  { rank := some "1.", title := some "A", release_date := none,
    metascore := some 90, url := some "https://www.metacritic.com/a",
    critic_reviews := none }

/-- Second of the three records; its detail fetch will fail. -/
def enrichedB : Game :=
  { rank := some "2.", title := some "B", release_date := none,
    metascore := some 91, url := some "https://www.metacritic.com/b",
    critic_reviews := none }

/-- Third of the three records. -/
def enrichedC : Game :=
  { rank := some "3.", title := some "C", release_date := none,
    metascore := some 92, url := some "https://www.metacritic.com/c",
    critic_reviews := none }

/-- A detail-fetch oracle that fails on the second reference and serves a
matching body on the others. -/
def enrichFetch : String → Option (Option String) := fun u =>
  if u = "https://www.metacritic.com/a" then some (some "10 Critic Reviews")
  else if u = "https://www.metacritic.com/b" then none
  else some (some "20 Critic Reviews")

/-- Witness for c9_enrichment_never_drops on the three-record scenario:
one of three detail fetches fails, that record keeps critic_reviews
absent, the other two are populated, and the count stays 3. -/
theorem c9_witness :
    (∀ g ∈ [enrichedA, enrichedB, enrichedC], g.critic_reviews = none) ∧
    ((fetch_reviews_for_games enrichFetch [enrichedA, enrichedB, enrichedC]).length =
        ([enrichedA, enrichedB, enrichedC] : List Game).length ∧
      List.Forall₂ (fun g g' =>
          g'.rank = g.rank ∧ g'.title = g.title ∧
          g'.release_date = g.release_date ∧ g'.metascore = g.metascore ∧
          g'.url = g.url ∧
          (∀ u body, g.url = some u → u ≠ "" → enrichFetch u = some body →
            g'.critic_reviews = parse_critic_reviews body) ∧
          (∀ u, g.url = some u → u ≠ "" → enrichFetch u = none →
            g'.critic_reviews = none) ∧
          ((g.url = none ∨ g.url = some "") → g'.critic_reviews = none))
        [enrichedA, enrichedB, enrichedC]
        (fetch_reviews_for_games enrichFetch [enrichedA, enrichedB, enrichedC])) ∧
    (fetch_reviews_for_games enrichFetch [enrichedA, enrichedB, enrichedC]).map
      (fun g => g.critic_reviews) = [some 10, none, some 20] :=
  ⟨by decide, c9_enrichment_never_drops enrichFetch _ (by decide), rfl⟩

/- Claim C10: sequential and concurrent runs agree. -/

/-- C10: over the same fixed per-page fetch results, with no successfully
fetched page of the range extracting zero records, the sequential and the
bounded-concurrent traversals return the same record collection: the lists
are equal, hence of equal length and multiset-equal - concurrency neither
loses nor duplicates a record.  (The two aggregation loops agree even
without the no-empty-page hypothesis.) -/
theorem c10_sequential_concurrent_agree (fetch : Nat → Option (List Card))
    (start stop : Nat) (l₁ l₂ : List Game)
    (hne : ∀ q ∈ List.range' start (stop + 1 - start),
      (fetch q).bind parse_games ≠ some [])
    (h₁ : scrape_games fetch start stop = some l₁)
    (h₂ : scrape_games_async fetch start stop = some l₂) :
    l₁ = l₂ ∧ l₁.length = l₂.length ∧ ∀ g : Game, l₁.count g = l₂.count g := by
  have key : scrape_games fetch start stop = scrape_games_async fetch start stop :=
    scrape_games_go_fst_eq_aggregate fetch (List.range' start (stop + 1 - start)) []
  rw [key, h₂] at h₁
  obtain rfl : l₂ = l₁ := Option.some.inj h₁
  exact ⟨rfl, rfl, fun _ => rfl⟩

/-- Witness for c10_sequential_concurrent_agree at the two-page run of
dupFetch: both modes return the same two records. -/
theorem c10_witness :
    (∀ q ∈ List.range' 1 (2 + 1 - 1), (dupFetch q).bind parse_games ≠ some []) ∧
    scrape_games dupFetch 1 2 = some [dupGame, dupGame] ∧
    scrape_games_async dupFetch 1 2 = some [dupGame, dupGame] ∧
    (([dupGame, dupGame] : List Game) = [dupGame, dupGame] ∧
      ([dupGame, dupGame] : List Game).length = ([dupGame, dupGame] : List Game).length ∧
      ∀ g : Game, ([dupGame, dupGame] : List Game).count g =
        ([dupGame, dupGame] : List Game).count g) :=
  ⟨by decide, rfl, rfl,
    c10_sequential_concurrent_agree dupFetch 1 2 [dupGame, dupGame] [dupGame, dupGame]
      (by decide) rfl rfl⟩
